import Mathlib

/-!
Shallow embedding of the `dsx` package (src/dsx.go), a generic query-builder
and batch-mutation layer over Google Cloud Datastore, together with theorems
settling the specification claims.

The backend (the `datastore.Client` and the `datastore` library's opaque
`Query`, cursor codec and iterator) is an external collaborator: the library
query object is modelled as an explicit record of the accumulated query state
that the builder methods mutate, and every network round-trip is an oracle
function passed to the execution method, whose invocations are recorded in an
explicit call log so that "no backend call is made" is a provable statement.
-/

namespace Dsx

/-- A Datastore key, as built by `datastore.NameKey(kind, name, nil)`:
a (kind, string id) pair.  The code under verification only ever constructs
parentless name keys. -/
structure Key where
  kind : String
  name : String
  deriving DecidableEq, Repr

/-- Embeds `datastore.NameKey(kind, name, nil)`. -/
def NameKey (kind name : String) : Key := ⟨kind, name⟩

/-- A Go `interface\x7b\x7d` value, as far as the code inspects it: the only type
assertion performed is `value.(string)`, so the embedding distinguishes
strings, keys (produced by the key-filter conversion) and everything else. -/
inductive GoValue where
  | str (s : String)
  | int (n : Int)
  | key (k : Key)
  | boolean (b : Bool)
  | strList (l : List String)
  | other (tag : Nat)
  deriving DecidableEq, Repr

/-- The `FilterOperator` constants from dsx.go; the underlying representation in
Go is a string and the code only ever passes `string(operator)` through. -/
def OpEqual : String := "="
def OpGreaterEqual : String := ">="
def OpGreater : String := ">"
def OpLessEqual : String := "<="
def OpLess : String := "<"
def OpIn : String := "in"
def OpNotIn : String := "not in"

/-- The constant `FieldKey`, the identity pseudo-field `"__key__"`. -/
def FieldKey : String := "__key__"

/-- An opaque backend-issued cursor; `token` is the encoded string returned
by `Cursor.String()`. -/
structure Cursor where
  token : String
  deriving DecidableEq, Repr

/-- One filter predicate handed to `Query.FilterField`. -/
structure Filter where
  field : String
  op : String
  value : GoValue
  deriving DecidableEq, Repr

/-- The state accumulated in the library's `datastore.Query` object by the
builder calls the code performs (`FilterField`, `Order`, `Limit`, `Offset`,
`Start`, `Distinct`, `KeysOnly`, `Ancestor`). -/
structure DSQuery where
  kind : String
  filters : List Filter := []
  orders : List String := []
  qlimit : Option Int := none
  qoffset : Option Int := none
  start : Option Cursor := none
  distinct : Bool := false
  keysOnly : Bool := false
  ancestor : Option Key := none
  deriving DecidableEq, Repr

/-- Embeds `datastore.NewQuery(kind)`. -/
def DSQuery.new (kind : String) : DSQuery := { kind := kind }

/-- Embeds `query.FilterField(field, op, value)`: appends a predicate. -/
def DSQuery.filterField (q : DSQuery) (field op : String) (value : GoValue) : DSQuery :=
  { q with filters := q.filters ++ [⟨field, op, value⟩] }

/-- Embeds `query.Order(field)`: appends a sort order (the Go convention encodes
descending order by a leading `-`). -/
def DSQuery.order (q : DSQuery) (field : String) : DSQuery :=
  { q with orders := q.orders ++ [field] }

/-- Embeds `query.Limit(l)`. -/
def DSQuery.withLimit (q : DSQuery) (l : Int) : DSQuery := { q with qlimit := some l }

/-- Embeds `query.Offset(o)`. -/
def DSQuery.withOffset (q : DSQuery) (o : Int) : DSQuery := { q with qoffset := some o }

/-- Embeds `query.Start(c)`. -/
def DSQuery.startAt (q : DSQuery) (c : Cursor) : DSQuery := { q with start := some c }

/-- Embeds `query.Distinct()`. -/
def DSQuery.withDistinct (q : DSQuery) : DSQuery := { q with distinct := true }

/-- Embeds `query.KeysOnly()`. -/
def DSQuery.withKeysOnly (q : DSQuery) : DSQuery := { q with keysOnly := true }

/-- Embeds `query.Ancestor(k)`. -/
def DSQuery.withAncestor (q : DSQuery) (k : Key) : DSQuery := { q with ancestor := some k }

/-- The `QueryBuilder` state (dsx.go): the library query object, the kind,
the recorded limit, and the two pagination-mode flags.  The context and DB
handle are external collaborators supplied at execution time. -/
structure QueryBuilder where
  kind : String
  query : DSQuery
  limit : Int := 0
  usingOffset : Bool := false
  usingCursor : Bool := false
  deriving DecidableEq, Repr

/-- Embeds `Query[T](db, ctx, kind)`: fresh builder over a fresh library query. -/
def Query (kind : String) : QueryBuilder :=
  { kind := kind, query := DSQuery.new kind, limit := 0
    usingOffset := false, usingCursor := false }

namespace QueryBuilder

/-- Embeds `WithDistinct()`. -/
def WithDistinct (qb : QueryBuilder) : QueryBuilder :=
  { qb with query := qb.query.withDistinct }

/-- Embeds `WithLimit(limit)`: only applied when `limit > 0`. -/
def WithLimit (qb : QueryBuilder) (limit : Int) : QueryBuilder :=
  if limit > 0 then
    { qb with query := qb.query.withLimit limit, limit := limit }
  else qb

/-- Embeds `WithOffset(offset)`: only applied when `offset > 0`; flips `usingOffset`. -/
def WithOffset (qb : QueryBuilder) (offset : Int) : QueryBuilder :=
  if offset > 0 then
    { qb with query := qb.query.withOffset offset, usingOffset := true }
  else qb

/-- Embeds `WithOrder(field)`. -/
def WithOrder (qb : QueryBuilder) (field : String) : QueryBuilder :=
  { qb with query := qb.query.order field }

/-- Embeds `WithOrderDesc(field)`. -/
def WithOrderDesc (qb : QueryBuilder) (field : String) : QueryBuilder :=
  { qb with query := qb.query.order ("-" ++ field) }

/-- Embeds `WithCursor(cursor)`: `datastore.DecodeCursor` is the external cursor
codec, supplied as the `decode` oracle; a decode failure is `none`.  A
non-empty, successfully decoded token is applied as the query start and flips
`usingCursor`; otherwise nothing happens. -/
def WithCursor (decode : String → Option Cursor) (qb : QueryBuilder)
    (cursor : String) : QueryBuilder :=
  if cursor ≠ "" then
    match decode cursor with
    | some c => { qb with query := qb.query.startAt c, usingCursor := true }
    | none => qb
  else qb

/-- Embeds `WithFilter(key, operator, value)`: a filter on the identity pseudo-field
converts a string value to a name key under the builder's kind; a non-string
value for the identity field adds nothing; any other field passes through. -/
def WithFilter (qb : QueryBuilder) (key : String) (operator : String)
    (value : GoValue) : QueryBuilder :=
  if key = FieldKey then
    match value with
    | GoValue.str tmp =>
        let v := GoValue.key (NameKey qb.kind tmp)
        { qb with query := qb.query.filterField key operator v }
    | _ => qb
  else
    { qb with query := qb.query.filterField key operator value }

/-- Embeds `WithAncestorKey(ancestorKey)`: a nil key (`none`) is ignored. -/
def WithAncestorKey (qb : QueryBuilder) (ancestorKey : Option Key) : QueryBuilder :=
  match ancestorKey with
  | some k => { qb with query := qb.query.withAncestor k }
  | none => qb

/-- Embeds `KeysOnly()`. -/
def KeysOnly (qb : QueryBuilder) : QueryBuilder :=
  { qb with query := qb.query.withKeysOnly }

end QueryBuilder

/-- An opaque error surfaced by the backend library; the code never inspects
these, only logs and returns them. -/
structure BErr where
  code : Nat
  deriving DecidableEq, Repr

/-- The errors a dsx operation can return: the two pagination-conflict errors
and the two aggregation-shape errors built by `errors.New` / `fmt.Errorf` in
dsx.go, plus backend errors passed through verbatim. -/
inductive Err where
  | usingCursorConflict
  | usingOffsetConflict
  | countNotFound
  | unexpectedCountType (typeName : String)
  | backend (e : BErr)
  deriving DecidableEq, Repr

/-- The message of each locally constructed error, as written in dsx.go. -/
def Err.message : Err → String
  | .usingCursorConflict => "query defined to use cursor"
  | .usingOffsetConflict => "query defined to use offset instead of cursor"
  | .countNotFound => "count result not found"
  | .unexpectedCountType t => "unexpected count type: " ++ t
  | .backend _ => "backend error"

/-- One network round-trip to the backend, recorded in execution call logs. -/
inductive BackendCall where
  | getAll (q : DSQuery)
  | run (q : DSQuery)
  | runAggregation (q : DSQuery) (aliasName : String)
  | put (k : Key)
  | putMulti (ks : List Key)
  | deleteMulti (ks : List Key)
  deriving DecidableEq, Repr

/-- A value in the map returned by `RunAggregationQuery`: either a
`*datastorepb.Value` (whose `GetIntegerValue()` yields the carried integer,
zero for a non-integer proto kind) or a value of some other dynamic type,
identified by its `%T` type name. -/
inductive AggCell where
  | value (intVal : Int)
  | other (typeName : String)
  deriving DecidableEq, Repr

/-- Association-list lookup modelling Go map indexing `results["total"]`. -/
def lookupAlias (aliasName : String) : List (String × AggCell) → Option AggCell
  | [] => none
  | (k, v) :: rest => if k = aliasName then some v else lookupAlias aliasName rest

/-- The behavior of the iterator returned by `client.Run`: the outcomes of
successive `it.Next` calls before `iterator.Done`, and the outcome of
`it.Cursor()` on the iteration state. -/
structure DSIter (T : Type) where
  steps : List (Except BErr T)
  cursorEnd : Except BErr Cursor

namespace QueryBuilder

/-- Embeds `Select()` (dsx.go): rejects a cursor-configured builder before any
backend call, otherwise materializes via one `GetAll` round-trip.  The
`getAll` oracle is the backend; the second component is the call log. -/
def Select {T : Type} (getAll : DSQuery → Except BErr (List T))
    (qb : QueryBuilder) : Except Err (List T) × List BackendCall :=
  if qb.usingCursor then
    (Except.error Err.usingCursorConflict, [])
  else
    match getAll qb.query with
    | Except.error e => (Except.error (Err.backend e), [BackendCall.getAll qb.query])
    | Except.ok result => (Except.ok result, [BackendCall.getAll qb.query])

/-- Embeds `Get()` (dsx.go): rejects a cursor-configured builder, otherwise takes
the first element of `Select()`'s result; zero matches give `none` with no
error. -/
def Get {T : Type} (getAll : DSQuery → Except BErr (List T))
    (qb : QueryBuilder) : Except Err (Option T) × List BackendCall :=
  if qb.usingCursor then
    (Except.error Err.usingCursorConflict, [])
  else
    match Select getAll qb with
    | (Except.error e, calls) => (Except.error e, calls)
    | (Except.ok tmp, calls) => (Except.ok tmp.head?, calls)

/-- The collection loop of `SelectWithCursor`: consume `Next` outcomes in
order, aborting on the first per-entity error, until `iterator.Done`. -/
def swcLoop {T : Type} : List (Except BErr T) → Except BErr (List T)
  | [] => Except.ok []
  | Except.error e :: _ => Except.error e
  | Except.ok x :: rest =>
      match swcLoop rest with
      | Except.error e => Except.error e
      | Except.ok xs => Except.ok (x :: xs)

/-- Embeds `SelectWithCursor()` (dsx.go): rejects an offset-configured builder
before any backend call; otherwise runs the iterator, collects entities until
done (aborting with nil result and empty cursor on a per-entity error), then
asks the same iteration state for the resumption cursor.  The first result
component models the Go `[]T` return, `none` standing for the nil slice. -/
def SelectWithCursor {T : Type} (run : DSQuery → DSIter T)
    (qb : QueryBuilder) : (Option (List T) × String × Option Err) × List BackendCall :=
  if qb.usingOffset then
    ((none, "", some Err.usingOffsetConflict), [])
  else
    let it := run qb.query
    match swcLoop it.steps with
    | Except.error e => ((none, "", some (Err.backend e)), [BackendCall.run qb.query])
    | Except.ok result =>
        match it.cursorEnd with
        | Except.error e => ((none, "", some (Err.backend e)), [BackendCall.run qb.query])
        | Except.ok cursor =>
            ((some result, cursor.token, none), [BackendCall.run qb.query])

/-- Embeds `Total()` (dsx.go): one `RunAggregationQuery` round-trip over a count
aggregation aliased `"total"`; a missing `"total"` entry or one that is not a
`*datastorepb.Value` yields zero with a local error; otherwise the carried
integer.  The first component models Go's `(int64, error)` pair. -/
def Total (runAgg : DSQuery → String → Except BErr (List (String × AggCell)))
    (qb : QueryBuilder) : (Int × Option Err) × List BackendCall :=
  let calls := [BackendCall.runAggregation qb.query "total"]
  match runAgg qb.query "total" with
  | Except.error e => ((0, some (Err.backend e)), calls)
  | Except.ok results =>
      match lookupAlias "total" results with
      | none => ((0, some Err.countNotFound), calls)
      | some (AggCell.value i) => ((i, none), calls)
      | some (AggCell.other t) => ((0, some (Err.unexpectedCountType t)), calls)

/-- The chunk loop of `Delete` (dsx.go): `for i := 0; i < totalKey; i += 500`
slicing `keys[i:min(i+500, totalKey)]`, issuing one `DeleteMulti` per slice
and returning on the first failure. -/
def deleteLoop (deleteMulti : List Key → Option BErr) :
    List Key → Option Err × List BackendCall
  | [] => (none, [])
  | k :: rest =>
      let batch := (k :: rest).take 500
      match deleteMulti batch with
      | some e => (some (Err.backend e), [BackendCall.deleteMulti batch])
      | none =>
          let tail := deleteLoop deleteMulti ((k :: rest).drop 500)
          (tail.1, BackendCall.deleteMulti batch :: tail.2)
  termination_by keys => keys.length
  decreasing_by simp [List.length_drop]; omega

/-- Embeds `Delete()` (dsx.go): runs the current query keys-only to obtain matching
keys, then deletes them in sequential chunks of 500, stopping at the first
chunk failure. -/
def Delete (getAll : DSQuery → Except BErr (List Key))
    (deleteMulti : List Key → Option BErr)
    (qb : QueryBuilder) : Option Err × List BackendCall :=
  let keysQuery := qb.query.withKeysOnly
  match getAll keysQuery with
  | Except.error e => (some (Err.backend e), [BackendCall.getAll keysQuery])
  | Except.ok keys =>
      let loop := deleteLoop deleteMulti keys
      (loop.1, BackendCall.getAll keysQuery :: loop.2)

end QueryBuilder

/-- The successive 500-key slices `keys[i:min(i+500, totalKey)]` taken by the
`Delete` loop, in order. -/
def chunks500 : List Key → List (List Key)
  | [] => []
  | k :: rest => (k :: rest).take 500 :: chunks500 ((k :: rest).drop 500)
  termination_by keys => keys.length
  decreasing_by simp [List.length_drop]; omega

/-- The `DeleteMulti` key lists appearing in a call log, in order. -/
def deleteCallsOf : List BackendCall → List (List Key)
  | [] => []
  | BackendCall.deleteMulti ks :: rest => ks :: deleteCallsOf rest
  | _ :: rest => deleteCallsOf rest

/-- An opaque live backend client. -/
structure Client where
  id : Nat
  deriving DecidableEq, Repr

/-- The `DB` connection handle: client pointer (`none` = nil) plus the
connection metadata. -/
structure DB where
  client : Option Client
  projectId : String
  databaseId : String
  deriving DecidableEq, Repr

/-- Embeds `Connect(ctx, projectId, databaseId, credentialsJSON)` (dsx.go):
`newClient` is the `datastore.NewClientWithDatabase` oracle, called with the
credentials option exactly when `credentialsJSON` is non-empty; per the
library contract a failure returns a nil client alongside the error.  A
`&DB\x7b...\x7d` literal is returned unconditionally, so the first component is
always `some`.  The result models Go's `(*DB, error)` pair. -/
def Connect (newClient : Option String → Except BErr Client)
    (projectId databaseId credentialsJSON : String) : Option DB × Option BErr :=
  let made :=
    if credentialsJSON ≠ "" then newClient (some credentialsJSON)
    else newClient none
  match made with
  | Except.ok c =>
      (some { client := some c, projectId := projectId, databaseId := databaseId }, none)
  | Except.error e =>
      (some { client := none, projectId := projectId, databaseId := databaseId }, some e)

/-- Modelled from the spec: `GetMulti` is documented by the repository README
(src/unnamed/part_000) and spec §4.4 but its implementation is not under
src/.  Per the spec it fetches entities for a sequence of ids in one call,
preserving input order, with non-existent entities represented as zero-valued
placeholders at their original index.  `store` is the backend's keyed entity
map and `zero` the zero value of the entity type. -/
def GetMulti {T : Type} (store : Key → Option T) (zero : T)
    (kind : String) (ids : List String) : List T :=
  ids.map fun id => (store (NameKey kind id)).getD zero

end Dsx
namespace Dsx

/-- C3: for every builder, `WithFilter` with the identity pseudo-field and a string value appends a predicate whose comparison value is a name key built from the builder's kind and that string; with the identity pseudo-field and a non-string value it appends nothing (silent no-op); with any other field it appends the (field, op, value) predicate unchanged. -/
theorem withFilter_semantics (qb : QueryBuilder) (field op : String) (v : GoValue) :
    (field = FieldKey →
      (∀ s, v = GoValue.str s →
        qb.WithFilter field op v = { qb with query := qb.query.filterField field op (GoValue.key (NameKey qb.kind s)) }) ∧
      ((∀ s, v ≠ GoValue.str s) → qb.WithFilter field op v = qb)) ∧
    (field ≠ FieldKey →
      qb.WithFilter field op v = { qb with query := qb.query.filterField field op v }) := by
  constructor
  · intro hf
    constructor
    · intro s hs
      subst hs
      simp [QueryBuilder.WithFilter, hf]
    · intro hns
      cases v with
      | str s => exact absurd rfl (hns s)
      | _ => simp [QueryBuilder.WithFilter, hf]
  · intro hf
    cases v <;> simp [QueryBuilder.WithFilter, hf]

theorem withFilter_semantics_witness :
    (Query "User").WithFilter FieldKey OpEqual (GoValue.str "a") = { Query "User" with query := (Query "User").query.filterField FieldKey OpEqual (GoValue.key (NameKey "User" "a")) } ∧
    (Query "User").WithFilter FieldKey OpEqual (GoValue.int 3) = Query "User" ∧
    (Query "User").WithFilter "Status" OpEqual (GoValue.str "active") = { Query "User" with query := (Query "User").query.filterField "Status" OpEqual (GoValue.str "active") } := by
  refine ⟨?_, ?_, ?_⟩
  · exact ((withFilter_semantics (Query "User") FieldKey OpEqual (GoValue.str "a")).1 rfl).1 "a" rfl
  · exact ((withFilter_semantics (Query "User") FieldKey OpEqual (GoValue.int 3)).1 rfl).2
      (by intro s h; cases h)
  · exact (withFilter_semantics (Query "User") "Status" OpEqual (GoValue.str "active")).2
      (by decide)

end Dsx
namespace Dsx

/-- C4: for every builder, decode oracle and token, `WithCursor` applies the token as the query start position and sets `usingCursor` exactly when the token is non-empty and decodes successfully; an empty or undecodable token makes the call a complete no-op, and on a fresh builder `usingCursor` stays false and the start position stays unset, with no error reported. -/
theorem withCursor_semantics (decode : String → Option Cursor) (qb : QueryBuilder)
    (token : String) :
    (∀ c, token ≠ "" → decode token = some c →
      QueryBuilder.WithCursor decode qb token = { qb with query := qb.query.startAt c, usingCursor := true }) ∧
    (token = "" ∨ decode token = none → QueryBuilder.WithCursor decode qb token = qb) ∧
    (∀ kind, token = "" ∨ decode token = none →
      (QueryBuilder.WithCursor decode (Query kind) token).usingCursor = false ∧
      (QueryBuilder.WithCursor decode (Query kind) token).query.start = none) := by
  have happly : ∀ c, token ≠ "" → decode token = some c →
      QueryBuilder.WithCursor decode qb token = { qb with query := qb.query.startAt c, usingCursor := true } := by
    intro c hne hdec
    simp [QueryBuilder.WithCursor, hne, hdec]
  have hnoop : ∀ (qb' : QueryBuilder), token = "" ∨ decode token = none →
      QueryBuilder.WithCursor decode qb' token = qb' := by
    intro qb' h
    rcases h with h | h
    · simp [QueryBuilder.WithCursor, h]
    · by_cases he : token = ""
      · simp [QueryBuilder.WithCursor, he]
      · simp [QueryBuilder.WithCursor, he, h]
  refine ⟨happly, hnoop qb, ?_⟩
  intro kind h
  rw [hnoop (Query kind) h]
  exact ⟨rfl, rfl⟩

theorem withCursor_semantics_witness :
    QueryBuilder.WithCursor (fun s => if s = "good" then some ⟨s⟩ else none) (Query "User") "good" = { Query "User" with query := (Query "User").query.startAt ⟨"good"⟩, usingCursor := true } ∧
    QueryBuilder.WithCursor (fun s => if s = "good" then some ⟨s⟩ else none) (Query "User") "" = Query "User" ∧
    (QueryBuilder.WithCursor (fun s => if s = "good" then some ⟨s⟩ else none) (Query "User") "bad").usingCursor = false ∧
    (QueryBuilder.WithCursor (fun s => if s = "good" then some ⟨s⟩ else none) (Query "User") "bad").query.start = none := by
  refine ⟨?_, ?_, ?_, ?_⟩
  · exact (withCursor_semantics (fun s => if s = "good" then some ⟨s⟩ else none) (Query "User") "good").1 ⟨"good"⟩ (by decide) (by decide)
  · exact (withCursor_semantics (fun s => if s = "good" then some ⟨s⟩ else none) (Query "User") "").2.1 (Or.inl rfl)
  · exact ((withCursor_semantics (fun s => if s = "good" then some ⟨s⟩ else none) (Query "User") "bad").2.2 "User" (Or.inr (by decide))).1
  · exact ((withCursor_semantics (fun s => if s = "good" then some ⟨s⟩ else none) (Query "User") "bad").2.2 "User" (Or.inr (by decide))).2

/-- C5: for every builder, `WithLimit n` sets the limit only for `n > 0` and is a silent no-op otherwise; `WithOffset n` sets the offset and flips `usingOffset` only for `n > 0`, is a no-op otherwise, and never inspects or changes `usingCursor`, so a builder configured with a valid cursor and then a positive offset carries both flags at once. -/
theorem withLimit_withOffset_semantics (qb : QueryBuilder) (n : Int) :
    (n ≤ 0 → qb.WithLimit n = qb) ∧
    (0 < n → qb.WithLimit n = { qb with query := qb.query.withLimit n, limit := n }) ∧
    (n ≤ 0 → qb.WithOffset n = qb) ∧
    (0 < n → qb.WithOffset n = { qb with query := qb.query.withOffset n, usingOffset := true }) ∧
    (qb.WithOffset n).usingCursor = qb.usingCursor ∧
    (∀ decode tok c, tok ≠ "" → decode tok = some c → 0 < n →
      ((QueryBuilder.WithCursor decode qb tok).WithOffset n).usingOffset = true ∧
      ((QueryBuilder.WithCursor decode qb tok).WithOffset n).usingCursor = true) := by
  refine ⟨?_, ?_, ?_, ?_, ?_, ?_⟩
  · intro h; simp [QueryBuilder.WithLimit, not_lt.mpr h]
  · intro h; simp [QueryBuilder.WithLimit, h]
  · intro h; simp [QueryBuilder.WithOffset, not_lt.mpr h]
  · intro h; simp [QueryBuilder.WithOffset, h]
  · by_cases h : 0 < n <;> simp [QueryBuilder.WithOffset, h]
  · intro decode tok c hne hdec hn
    simp [QueryBuilder.WithCursor, hne, hdec, QueryBuilder.WithOffset, hn]

theorem withLimit_withOffset_semantics_witness :
    (Query "User").WithLimit 0 = Query "User" ∧
    (Query "User").WithLimit 10 = { Query "User" with query := (Query "User").query.withLimit 10, limit := 10 } ∧
    (Query "User").WithOffset (-1) = Query "User" ∧
    (Query "User").WithOffset 20 = { Query "User" with query := (Query "User").query.withOffset 20, usingOffset := true } ∧
    ((QueryBuilder.WithCursor (fun s => if s = "good" then some ⟨s⟩ else none) (Query "User") "good").WithOffset 20).usingOffset = true ∧
    ((QueryBuilder.WithCursor (fun s => if s = "good" then some ⟨s⟩ else none) (Query "User") "good").WithOffset 20).usingCursor = true := by
  refine ⟨?_, ?_, ?_, ?_, ?_, ?_⟩
  · exact (withLimit_withOffset_semantics (Query "User") 0).1 (by decide)
  · exact (withLimit_withOffset_semantics (Query "User") 10).2.1 (by decide)
  · exact (withLimit_withOffset_semantics (Query "User") (-1)).2.2.1 (by decide)
  · exact (withLimit_withOffset_semantics (Query "User") 20).2.2.2.1 (by decide)
  · exact ((withLimit_withOffset_semantics (Query "User") 20).2.2.2.2.2 (fun s => if s = "good" then some ⟨s⟩ else none) "good" ⟨"good"⟩ (by decide) (by decide) (by decide)).1
  · exact ((withLimit_withOffset_semantics (Query "User") 20).2.2.2.2.2 (fun s => if s = "good" then some ⟨s⟩ else none) "good" ⟨"good"⟩ (by decide) (by decide) (by decide)).2

end Dsx
namespace Dsx

/-- C1: for every builder and every backend behavior, `Select` returns the cursor-mode PaginationConflict error exactly when `usingCursor` is true, `SelectWithCursor` returns the offset-mode PaginationConflict error exactly when `usingOffset` is true, and in both rejected cases the backend call log is empty, so the rejection happens before any backend call. -/
theorem pagination_conflict_boundary {T : Type} (getAll : DSQuery → Except BErr (List T))
    (run : DSQuery → DSIter T) (qb : QueryBuilder) :
    ((QueryBuilder.Select getAll qb).1 = Except.error Err.usingCursorConflict ↔ qb.usingCursor = true) ∧
    (qb.usingCursor = true → (QueryBuilder.Select getAll qb).2 = []) ∧
    ((QueryBuilder.SelectWithCursor run qb).1.2.2 = some Err.usingOffsetConflict ↔ qb.usingOffset = true) ∧
    (qb.usingOffset = true → (QueryBuilder.SelectWithCursor run qb).2 = []) := by
  refine ⟨?_, ?_, ?_, ?_⟩
  · cases h : qb.usingCursor with
    | true => simp [QueryBuilder.Select, h]
    | false =>
      simp only [QueryBuilder.Select, h, Bool.false_eq_true, if_false]
      cases hga : getAll qb.query <;> simp
  · intro h; simp [QueryBuilder.Select, h]
  · cases h : qb.usingOffset with
    | true => simp [QueryBuilder.SelectWithCursor, h]
    | false =>
      simp only [QueryBuilder.SelectWithCursor, h, Bool.false_eq_true, if_false]
      cases hs : QueryBuilder.swcLoop (run qb.query).steps with
      | error e => simp
      | ok xs => cases hc : (run qb.query).cursorEnd <;> simp
  · intro h; simp [QueryBuilder.SelectWithCursor, h]

theorem pagination_conflict_boundary_witness :
    ((QueryBuilder.Select (T := Nat) (fun _ => Except.ok []) { Query "U" with usingCursor := true }).2 = []) ∧
    ((QueryBuilder.SelectWithCursor (T := Nat) (fun _ => ⟨[], Except.ok ⟨""⟩⟩) { Query "U" with usingOffset := true }).2 = []) := by
  constructor
  · exact (pagination_conflict_boundary (T := Nat) (fun _ => Except.ok []) (fun _ => ⟨[], Except.ok ⟨""⟩⟩) { Query "U" with usingCursor := true }).2.1 rfl
  · exact (pagination_conflict_boundary (T := Nat) (fun _ => Except.ok []) (fun _ => ⟨[], Except.ok ⟨""⟩⟩) { Query "U" with usingOffset := true }).2.2.2 rfl

/-- C6: for every builder with `usingCursor` false, `Get` returns the first entity of the list `Select` would return when that list is non-empty and `none` with no error when it is empty; when `usingCursor` is true it fails with the PaginationConflict error before any backend call, just as `Select` does. -/
theorem get_first_of_select {T : Type} (getAll : DSQuery → Except BErr (List T))
    (qb : QueryBuilder) :
    (qb.usingCursor = true → (QueryBuilder.Get getAll qb).1 = Except.error Err.usingCursorConflict ∧ (QueryBuilder.Get getAll qb).2 = []) ∧
    (∀ x l, (QueryBuilder.Select getAll qb).1 = Except.ok (x :: l) →
      (QueryBuilder.Get getAll qb).1 = Except.ok (some x)) ∧
    ((QueryBuilder.Select getAll qb).1 = Except.ok [] →
      (QueryBuilder.Get getAll qb).1 = Except.ok none) := by
  refine ⟨?_, ?_, ?_⟩
  · intro h; simp [QueryBuilder.Get, h]
  · intro x l hsel
    have hcur : qb.usingCursor = false := by
      cases h : qb.usingCursor with
      | true => simp [QueryBuilder.Select, h] at hsel
      | false => rfl
    simp only [QueryBuilder.Get, hcur, Bool.false_eq_true, if_false]
    cases hS : QueryBuilder.Select getAll qb with
    | mk r calls =>
      rw [hS] at hsel
      simp at hsel
      subst hsel
      simp
  · intro hsel
    have hcur : qb.usingCursor = false := by
      cases h : qb.usingCursor with
      | true => simp [QueryBuilder.Select, h] at hsel
      | false => rfl
    simp only [QueryBuilder.Get, hcur, Bool.false_eq_true, if_false]
    cases hS : QueryBuilder.Select getAll qb with
    | mk r calls =>
      rw [hS] at hsel
      simp at hsel
      subst hsel
      simp

theorem get_first_of_select_witness :
    (QueryBuilder.Get (T := Nat) (fun _ => Except.ok [7, 8]) (Query "U")).1 = Except.ok (some 7) ∧
    (QueryBuilder.Get (T := Nat) (fun _ => Except.ok []) (Query "U")).1 = Except.ok none ∧
    (QueryBuilder.Get (T := Nat) (fun _ => Except.ok []) { Query "U" with usingCursor := true }).1 = Except.error Err.usingCursorConflict := by
  refine ⟨?_, ?_, ?_⟩
  · exact (get_first_of_select (T := Nat) (fun _ => Except.ok [7, 8]) (Query "U")).2.1 7 [8] rfl
  · exact (get_first_of_select (T := Nat) (fun _ => Except.ok []) (Query "U")).2.2 rfl
  · exact ((get_first_of_select (T := Nat) (fun _ => Except.ok []) { Query "U" with usingCursor := true }).1 rfl).1

/-- C7: for every builder, `Total` returns the backend's aggregation count when the result map holds the `total` key with a `*datastorepb.Value` entry, and returns zero together with an aggregation-shape error - distinct from any backend-reported error - when the key is absent or its value has an unexpected dynamic type. -/
theorem total_aggregation_semantics
    (runAgg : DSQuery → String → Except BErr (List (String × AggCell)))
    (qb : QueryBuilder) :
    (∀ results i, runAgg qb.query "total" = Except.ok results →
      lookupAlias "total" results = some (AggCell.value i) →
      (QueryBuilder.Total runAgg qb).1 = (i, none)) ∧
    (∀ results, runAgg qb.query "total" = Except.ok results →
      lookupAlias "total" results = none →
      (QueryBuilder.Total runAgg qb).1 = (0, some Err.countNotFound)) ∧
    (∀ results t, runAgg qb.query "total" = Except.ok results →
      lookupAlias "total" results = some (AggCell.other t) →
      (QueryBuilder.Total runAgg qb).1 = (0, some (Err.unexpectedCountType t))) ∧
    (∀ e t, Err.countNotFound ≠ Err.backend e ∧ Err.unexpectedCountType t ≠ Err.backend e) := by
  refine ⟨?_, ?_, ?_, ?_⟩
  · intro results i hr hl; simp [QueryBuilder.Total, hr, hl]
  · intro results hr hl; simp [QueryBuilder.Total, hr, hl]
  · intro results t hr hl; simp [QueryBuilder.Total, hr, hl]
  · intro e t; exact ⟨by simp, by simp⟩

theorem total_aggregation_semantics_witness :
    (QueryBuilder.Total (fun _ _ => Except.ok [("total", AggCell.value 5)]) (Query "U")).1 = (5, none) ∧
    (QueryBuilder.Total (fun _ _ => Except.ok [("other", AggCell.value 5)]) (Query "U")).1 = (0, some Err.countNotFound) ∧
    (QueryBuilder.Total (fun _ _ => Except.ok [("total", AggCell.other "int")]) (Query "U")).1 = (0, some (Err.unexpectedCountType "int")) := by
  refine ⟨?_, ?_, ?_⟩
  · exact (total_aggregation_semantics (fun _ _ => Except.ok [("total", AggCell.value 5)]) (Query "U")).1 [("total", AggCell.value 5)] 5 rfl (by decide)
  · exact (total_aggregation_semantics (fun _ _ => Except.ok [("other", AggCell.value 5)]) (Query "U")).2.1 [("other", AggCell.value 5)] rfl (by decide)
  · exact (total_aggregation_semantics (fun _ _ => Except.ok [("total", AggCell.other "int")]) (Query "U")).2.2.1 [("total", AggCell.other "int")] "int" rfl (by decide)

end Dsx
namespace Dsx

theorem swcLoop_all_ok {T : Type} (xs : List T) :
    QueryBuilder.swcLoop (xs.map Except.ok) = Except.ok xs := by
  induction xs with
  | nil => rfl
  | cons x rest ih => simp [QueryBuilder.swcLoop, ih]

theorem swcLoop_first_error {T : Type} (xs : List T) (e : BErr)
    (rest : List (Except BErr T)) :
    QueryBuilder.swcLoop (xs.map Except.ok ++ Except.error e :: rest) = Except.error e := by
  induction xs with
  | nil => rfl
  | cons x xs ih => simp [QueryBuilder.swcLoop, ih]

/-- C8: for every builder with `usingOffset` false, `SelectWithCursor` collects the iterator's entities one at a time until exhaustion and then takes the resumption cursor from that same iteration state; if any per-entity step fails it returns that error with a nil result list and empty cursor string - no partial result. -/
theorem selectWithCursor_semantics {T : Type} (run : DSQuery → DSIter T)
    (qb : QueryBuilder) (hoff : qb.usingOffset = false) :
    (∀ (xs : List T) (c : Cursor), (run qb.query).steps = xs.map Except.ok →
      (run qb.query).cursorEnd = Except.ok c →
      (QueryBuilder.SelectWithCursor run qb).1 = (some xs, c.token, none)) ∧
    (∀ (xs : List T) (e : BErr) (rest : List (Except BErr T)), (run qb.query).steps = xs.map Except.ok ++ Except.error e :: rest →
      (QueryBuilder.SelectWithCursor run qb).1 = (none, "", some (Err.backend e))) := by
  constructor
  · intro xs c hsteps hcur
    simp [QueryBuilder.SelectWithCursor, hoff, hsteps, hcur, swcLoop_all_ok]
  · intro xs e rest hsteps
    simp [QueryBuilder.SelectWithCursor, hoff, hsteps, swcLoop_first_error]

theorem selectWithCursor_semantics_witness :
    (QueryBuilder.SelectWithCursor (T := Nat) (fun _ => ⟨[Except.ok 1, Except.ok 2], Except.ok ⟨"cur"⟩⟩) (Query "U")).1 = (some [1, 2], "cur", none) ∧
    (QueryBuilder.SelectWithCursor (T := Nat) (fun _ => ⟨[Except.ok 1, Except.error ⟨9⟩, Except.ok 2], Except.ok ⟨"cur"⟩⟩) (Query "U")).1 = (none, "", some (Err.backend ⟨9⟩)) := by
  constructor
  · exact (selectWithCursor_semantics (T := Nat) (fun _ => ⟨[Except.ok 1, Except.ok 2], Except.ok ⟨"cur"⟩⟩) (Query "U") rfl).1 [1, 2] ⟨"cur"⟩ rfl rfl
  · exact (selectWithCursor_semantics (T := Nat) (fun _ => ⟨[Except.ok 1, Except.error ⟨9⟩, Except.ok 2], Except.ok ⟨"cur"⟩⟩) (Query "U") rfl).2 [1] ⟨9⟩ [Except.ok 2] rfl

end Dsx
namespace Dsx

theorem chunks500_cons (k : Key) (rest : List Key) :
    chunks500 (k :: rest) = (k :: rest).take 500 :: chunks500 ((k :: rest).drop 500) := by
  rw [chunks500]

theorem take500_induction {motive : List Key → Prop} (hnil : motive [])
    (hcons : ∀ k rest, motive ((k :: rest).drop 500) → motive (k :: rest)) :
    ∀ keys, motive keys := by
  have H : ∀ n (keys : List Key), keys.length ≤ n → motive keys := by
    intro n
    induction n with
    | zero =>
      intro keys h
      cases keys with
      | nil => exact hnil
      | cons k rest => simp at h
    | succ n ih =>
      intro keys h
      cases keys with
      | nil => exact hnil
      | cons k rest =>
        apply hcons
        apply ih
        simp only [List.length_drop, List.length_cons] at h ⊢
        omega
  intro keys
  exact H keys.length keys le_rfl

theorem chunks500_length (keys : List Key) :
    (chunks500 keys).length = (keys.length + 499) / 500 := by
  induction keys using take500_induction with
  | hnil => simp [chunks500]
  | hcons k rest ih =>
    rw [chunks500_cons]
    simp only [List.length_cons, List.length_drop] at ih ⊢
    rw [ih]
    omega

theorem chunks500_chunk_size (keys : List Key) :
    ∀ c ∈ chunks500 keys, c.length ≤ 500 := by
  induction keys using take500_induction with
  | hnil => simp [chunks500]
  | hcons k rest ih =>
    rw [chunks500_cons]
    intro c hc
    rcases List.mem_cons.mp hc with h | h
    · subst h; simp [List.length_take]
    · exact ih c h

theorem chunks500_flatten (keys : List Key) : (chunks500 keys).flatten = keys := by
  induction keys using take500_induction with
  | hnil => simp [chunks500]
  | hcons k rest ih =>
    rw [chunks500_cons]
    simp only [List.flatten_cons]
    rw [ih]
    exact List.take_append_drop 500 (k :: rest)

theorem deleteLoop_all_ok (db : List Key → Option BErr) (keys : List Key)
    (h : ∀ c ∈ chunks500 keys, db c = none) :
    QueryBuilder.deleteLoop db keys =
      (none, (chunks500 keys).map BackendCall.deleteMulti) := by
  induction keys using take500_induction with
  | hnil => simp [QueryBuilder.deleteLoop, chunks500]
  | hcons k rest ih =>
    rw [chunks500_cons] at h
    have hb : db ((k :: rest).take 500) = none := h _ (List.mem_cons_self _ _)
    have ihd := ih (fun c hc => h c (List.mem_cons_of_mem _ hc))
    rw [QueryBuilder.deleteLoop]
    simp only [hb, ihd, chunks500_cons, List.map_cons]

theorem deleteLoop_first_fail (db : List Key → Option BErr) (keys : List Key)
    (pre : List (List Key)) (c : List Key) (post : List (List Key)) (e : BErr)
    (hsplit : chunks500 keys = pre ++ c :: post)
    (hpre : ∀ c' ∈ pre, db c' = none) (hc : db c = some e) :
    QueryBuilder.deleteLoop db keys =
      (some (Err.backend e), (pre ++ [c]).map BackendCall.deleteMulti) := by
  induction keys using take500_induction generalizing pre post with
  | hnil => simp [chunks500] at hsplit
  | hcons k rest ih =>
    rw [chunks500_cons] at hsplit
    cases pre with
    | nil =>
      simp only [List.nil_append, List.cons.injEq] at hsplit
      rw [QueryBuilder.deleteLoop, hsplit.1]
      simp only [hc, List.nil_append, List.map_cons, List.map_nil]
    | cons p pre' =>
      simp only [List.cons_append, List.cons.injEq] at hsplit
      have hp : db ((k :: rest).take 500) = none := by
        rw [hsplit.1]
        exact hpre p (List.mem_cons_self _ _)
      have ihd := ih pre' post hsplit.2
        (fun c' h' => hpre c' (List.mem_cons_of_mem _ h'))
      rw [QueryBuilder.deleteLoop]
      simp only [hp, ihd, List.cons_append, List.map_cons]
      rw [hsplit.1]


end Dsx

namespace Dsx

theorem chunks500_short (keys : List Key) (h1 : keys ≠ []) (h2 : keys.length ≤ 500) :
    chunks500 keys = [keys] := by
  cases keys with
  | nil => exact absurd rfl h1
  | cons k rest =>
    rw [chunks500_cons, List.take_of_length_le h2, List.drop_eq_nil_of_le h2]
    rw [chunks500]

/-- C2: for every query whose keys-only execution yields the key list `keys`, `Delete` issues one sequential `DeleteMulti` call per 500-key chunk - exactly ceil(N/500) calls when all succeed, each chunk at most 500 keys and the chunks concatenating back to `keys` - and when the call for a chunk fails, it returns that error immediately with exactly the preceding successful chunks and the failing chunk called, later chunks never attempted. -/
theorem delete_chunk_semantics (getAll : DSQuery → Except BErr (List Key))
    (db : List Key → Option BErr) (qb : QueryBuilder) (keys : List Key)
    (hga : getAll qb.query.withKeysOnly = Except.ok keys) :
    ((∀ c ∈ chunks500 keys, db c = none) →
      QueryBuilder.Delete getAll db qb = (none, BackendCall.getAll qb.query.withKeysOnly :: (chunks500 keys).map BackendCall.deleteMulti)) ∧
    (∀ (pre : List (List Key)) (c : List Key) (post : List (List Key)) (e : BErr),
      chunks500 keys = pre ++ c :: post → (∀ c' ∈ pre, db c' = none) → db c = some e →
      QueryBuilder.Delete getAll db qb = (some (Err.backend e), BackendCall.getAll qb.query.withKeysOnly :: (pre ++ [c]).map BackendCall.deleteMulti)) ∧
    (chunks500 keys).length = (keys.length + 499) / 500 ∧
    (∀ c ∈ chunks500 keys, c.length ≤ 500) ∧
    (chunks500 keys).flatten = keys := by
  refine ⟨?_, ?_, chunks500_length keys, chunks500_chunk_size keys, chunks500_flatten keys⟩
  · intro hall
    simp only [QueryBuilder.Delete, hga]
    rw [deleteLoop_all_ok db keys hall]
  · intro pre c post e hsplit hpre hc
    simp only [QueryBuilder.Delete, hga]
    rw [deleteLoop_first_fail db keys pre c post e hsplit hpre hc]

theorem delete_chunk_semantics_witness :
    QueryBuilder.Delete (fun _ => Except.ok [NameKey "K" "0", NameKey "K" "1"]) (fun _ => none) (Query "K") = (none, [BackendCall.getAll (Query "K").query.withKeysOnly, BackendCall.deleteMulti [NameKey "K" "0", NameKey "K" "1"]]) ∧
    QueryBuilder.Delete (fun _ => Except.ok [NameKey "K" "9"]) (fun _ => some ⟨7⟩) (Query "K") = (some (Err.backend ⟨7⟩), [BackendCall.getAll (Query "K").query.withKeysOnly, BackendCall.deleteMulti [NameKey "K" "9"]]) := by
  constructor
  · have h := (delete_chunk_semantics (fun _ => Except.ok [NameKey "K" "0", NameKey "K" "1"]) (fun _ => none) (Query "K") [NameKey "K" "0", NameKey "K" "1"] rfl).1 (fun c _ => rfl)
    rw [h, chunks500_short _ (by decide) (by decide)]
    rfl
  · have h := (delete_chunk_semantics (fun _ => Except.ok [NameKey "K" "9"]) (fun _ => some ⟨7⟩) (Query "K") [NameKey "K" "9"] rfl).2.1 [] [NameKey "K" "9"] [] ⟨7⟩ (by rw [chunks500_short _ (by decide) (by decide)]; rfl) (fun c hc => absurd hc (List.not_mem_nil c)) rfl
    rw [h]
    rfl

/-- C9: for every id sequence, `GetMulti` returns a list of the same length whose entry at each position is the stored entity for the id at the same input position, with every id lacking an entity yielding the zero-valued placeholder at its original index rather than being removed or causing an error. -/
theorem getMulti_order_parity {T : Type} (store : Key → Option T) (zero : T)
    (kind : String) (ids : List String) :
    (GetMulti store zero kind ids).length = ids.length ∧
    (∀ i : Nat, (GetMulti store zero kind ids)[i]? = (ids[i]?).map (fun id => (store (NameKey kind id)).getD zero)) ∧
    (∀ (i : Nat) (id : String), ids[i]? = some id → store (NameKey kind id) = none →
      (GetMulti store zero kind ids)[i]? = some zero) := by
  refine ⟨by simp [GetMulti], ?_, ?_⟩
  · intro i
    simp [GetMulti]
  · intro i id hid hmiss
    simp [GetMulti, hid, hmiss]

theorem getMulti_order_parity_witness :
    (GetMulti (fun k => if k.name = "a" then some 10 else none) 0 "U" ["a", "b"]).length = 2 ∧
    (GetMulti (fun k => if k.name = "a" then some 10 else none) 0 "U" ["a", "b"])[1]? = some 0 := by
  constructor
  · exact (getMulti_order_parity (fun k => if k.name = "a" then some 10 else none) 0 "U" ["a", "b"]).1
  · exact (getMulti_order_parity (fun k => if k.name = "a" then some 10 else none) 0 "U" ["a", "b"]).2.2 1 "b" rfl (by decide)

/-- C10: `Connect` always returns a non-nil DB handle carrying the given project and database identifiers, even when creating the backend client fails; on failure it returns the handle with a nil client together with the error, so the handle and error outcomes are not mutually exclusive. -/
theorem connect_nonnil_handle (newClient : Option String → Except BErr Client)
    (projectId databaseId credentialsJSON : String) :
    ((Connect newClient projectId databaseId credentialsJSON).1 ≠ none) ∧
    (∀ db, (Connect newClient projectId databaseId credentialsJSON).1 = some db →
      db.projectId = projectId ∧ db.databaseId = databaseId) ∧
    (∀ e, credentialsJSON ≠ "" → newClient (some credentialsJSON) = Except.error e →
      Connect newClient projectId databaseId credentialsJSON = (some { client := none, projectId := projectId, databaseId := databaseId }, some e)) ∧
    (∀ e, credentialsJSON = "" → newClient none = Except.error e →
      Connect newClient projectId databaseId credentialsJSON = (some { client := none, projectId := projectId, databaseId := databaseId }, some e)) := by
  refine ⟨?_, ?_, ?_, ?_⟩
  · by_cases hcred : credentialsJSON = "" <;>
      [cases hnc : newClient none; cases hnc : newClient (some credentialsJSON)] <;>
      simp [Connect, hcred, hnc]
  · intro db hdb
    by_cases hcred : credentialsJSON = ""
    · cases hnc : newClient none <;>
        simp [Connect, hcred, hnc] at hdb <;> simp [← hdb]
    · cases hnc : newClient (some credentialsJSON) <;>
        simp [Connect, hcred, hnc] at hdb <;> simp [← hdb]
  · intro e hcred hnc
    simp [Connect, hcred, hnc]
  · intro e hcred hnc
    simp [Connect, hcred, hnc]

theorem connect_nonnil_handle_witness :
    Connect (fun _ => Except.error ⟨3⟩) "proj" "db" "" = (some { client := none, projectId := "proj", databaseId := "db" }, some ⟨3⟩) ∧
    (Connect (fun _ => Except.error ⟨3⟩) "proj" "db" "").1 ≠ none := by
  constructor
  · exact (connect_nonnil_handle (fun _ => Except.error ⟨3⟩) "proj" "db" "").2.2.2 ⟨3⟩ rfl rfl
  · exact (connect_nonnil_handle (fun _ => Except.error ⟨3⟩) "proj" "db" "").1

end Dsx
